import Mathlib

/-!
Verification of the invoice-generator pipeline (src/main.rs).

The program generates `num_invoices` synthetic invoices, buffers them in a
batch of capacity 10000, and bulk-inserts each full batch (and a final
partial batch) into a store via a seven-array UNNEST insert.

Shallow embedding conventions:
* `NaiveDate` is a day number (`Int`); `NaiveDateTime` is a second count
  (`Int`), so `date.and_hms(0,0,0)` is `86400 * day`.
* The thread RNG is a stream of raw draws: each loop iteration consumes one
  `Draws` record, one raw `Nat` per random call, in program order.
  `rng.gen_range(lo..hi)` on integers is modelled as `lo + raw % (hi - lo)`,
  which is exactly the contract (a value uniform in `[lo, hi)`);
  `rng.gen_range(lo..=hi)` likewise with `hi - lo + 1`, and it panics
  (modelled as `none`) when the range is empty.
* `rng.gen_range(lo..hi)` on `f64` is modelled as
  `lo + (hi - lo) * (raw mod 2^53) / 2^53 : ℚ` — the 53-bit-fraction uniform
  sampling of the `rand` crate, always in `[lo, hi)`.
* `format!("{:.2}", x)` followed by `BigDecimal::from_str` is modelled by
  `round2 : ℚ → ℚ`: rounding to the nearest hundredth.  Rust formatting
  rounds the exact value of the binary float; a binary float is a dyadic
  rational, hence never a tie at a half-hundredth, so the tie-breaking rule
  is immaterial and round-half-up is a faithful model.
* The database pool is replaced by a `loadOk : Nat → Bool` oracle saying
  whether the k-th `insert_invoices` call succeeds; batches handed to the
  loader and batches it accepted are recorded in the run outcome.
-/

/-- Seconds in one day: `NaiveDate::and_hms_opt(0,0,0)` maps day `d` to
second count `86400 * d`. -/
def secondsPerDay : Int := 86400

/-- The 53-bit denominator used by the model of `rand`'s uniform `f64`
sampling. -/
def float53 : Nat := 2 ^ 53

/-- Model of `rng.gen_range(lo..hi)` on integers: a value in `[lo, hi)`
(well-defined when `lo < hi`). -/
def genRangeInt (raw : Nat) (lo hi : Int) : Int :=
  lo + (raw : Int) % (hi - lo)

/-- Model of `rng.gen_range(lo..=hi)` on integers: a value in `[lo, hi]`
(well-defined when `lo ≤ hi`). -/
def genRangeIncl (raw : Nat) (lo hi : Int) : Int :=
  lo + (raw : Int) % (hi - lo + 1)

/-- Model of `rng.gen_range(lo..hi)` on `f64`: a 53-bit-fraction uniform
value in `[lo, hi)`. -/
def floatGenRange (raw : Nat) (lo hi : ℚ) : ℚ :=
  lo + (hi - lo) * ((raw % float53 : Nat) : ℚ) / (float53 : ℚ)

/-- Model of `format!("{:.2}", x)` then `BigDecimal::from_str`: round `q` to
the nearest hundredth (ties cannot arise from binary-float inputs). -/
def round2 (q : ℚ) : ℚ :=
  (((q * 100 + 1 / 2).floor : ℤ) : ℚ) / 100

/-- `random_date_in_range` from src/main.rs: `days_in_range = end - start`;
`start + Duration::days(rng.gen_range(0..=days_in_range))`.  The draw
panics (`none`) when the inclusive range `0..=days_in_range` is empty. -/
def random_date_in_range (raw : Nat) (startDate endDate : Int) : Option Int :=
  let days_in_range := endDate - startDate
  if days_in_range < 0 then none
  else some (startDate + genRangeIncl raw 0 days_in_range)

/-- The raw random draws consumed by one loop iteration, one per random
call, in program order. -/
structure Draws where
  dateRaw : Nat
  dueRaw : Nat
  totalRaw : Nat
  taxRaw : Nat
  custRaw : Nat
  nameRaw : Nat
  statusRaw : Nat
deriving DecidableEq, Inhabited

/-- Modelled from the spec: the external name-generation facility
(`Name().fake()` from the `fake` crate, not part of this repository), an
opaque collaborator returning a non-empty synthesized display name. -/
def fakeName (raw : Nat) : String :=
  "Name " ++ toString raw

/-- The `statuses` vector of src/main.rs. -/
def statuses : List String := ["Paid", "Pending", "Overdue"]

/-- Model of `statuses.choose(&mut rng).unwrap()`: a uniform pick from the
three-element vector (the default is never reached). -/
def chooseStatus (raw : Nat) : String :=
  statuses.getD (raw % 3) "Paid"

/-- The `Invoice` struct of src/main.rs.  Timestamps are second counts,
`BigDecimal` amounts are exact rationals. -/
structure Invoice where
  customer_id : Int
  customer_name : String
  invoice_date : Int
  due_date : Int
  total_amount : ℚ
  tax_amount : ℚ
  status : String
deriving DecidableEq, Inhabited

/-- One iteration of the generation loop in `main`: the `Invoice` built from
one `Draws` record, or `none` when `random_date_in_range` panics. -/
def generate (d : Draws) (startDate endDate : Int) : Option Invoice :=
  match random_date_in_range d.dateRaw startDate endDate with
  | none => none
  | some day =>
    let invoice_date := secondsPerDay * day
    let due_date := invoice_date + secondsPerDay * genRangeIncl d.dueRaw 0 90
    let total_amount := round2 (floatGenRange d.totalRaw 100 10000)
    let tax_amount := round2 (floatGenRange d.taxRaw 10 1000)
    some ⟨genRangeInt d.custRaw 1 10000, fakeName d.nameRaw, invoice_date, due_date,
      total_amount, tax_amount, chooseStatus d.statusRaw⟩

/-- The seven column arrays marshalled by `insert_invoices` for the UNNEST
bulk insert. -/
structure Columns where
  customer_ids : List Int
  customer_names : List String
  invoice_dates : List Int
  due_dates : List Int
  total_amounts : List ℚ
  tax_amounts : List ℚ
  statuses : List String
deriving DecidableEq

/-- `insert_invoices` from src/main.rs, column-marshalling part: each field
is mapped over the batch slice in order. -/
def insert_invoices (invoices : List Invoice) : Columns :=
  ⟨invoices.map Invoice.customer_id, invoices.map Invoice.customer_name,
    invoices.map Invoice.invoice_date, invoices.map Invoice.due_date,
    invoices.map Invoice.total_amount, invoices.map Invoice.tax_amount,
    invoices.map Invoice.status⟩

/-- `batch_size` from src/main.rs. -/
def batch_size : Nat := 10000

/-- `start_date` from src/main.rs: 2021-01-01, as a day number
(days since 1970-01-01). -/
def start_date : Int := 18628

/-- `end_date` from src/main.rs: 2024-06-16, as a day number
(days since 1970-01-01); `end_date - start_date = 1262` days. -/
def end_date : Int := 19890

/-- Everything observable about one run of `main`'s loop:
* `attempts`: the batches passed to `insert_invoices`, in order;
* `persisted`: the batches the store accepted (successful flushes);
* `generated`: how many invoices were generated;
* `bufTrace`: the length of `invoices` after each `push`;
* `panicked`: whether a generation panic occurred;
* `ok`: whether the run completed without error;
* `reported`: the count printed by the final `println!`, when reached. -/
structure RunOutcome where
  attempts : List (List Invoice)
  persisted : List (List Invoice)
  generated : Nat
  bufTrace : List Nat
  panicked : Bool
  ok : Bool
  reported : Option Int
deriving DecidableEq

/-- The generate/push/flush loop of `main`, followed by the final partial
flush.  `rem` counts the remaining iterations of `for _ in 0..num_invoices`;
`gen` invoices have been generated so far; `buf` is the `invoices` vector;
`att`/`per` record loader calls and accepted batches; `tr` records buffer
lengths after each push.  A flush is the call guarded by
`invoices.len() == batch_size` (then `invoices.clear()`), or the final
`if !invoices.is_empty()` flush; a failed flush propagates via `?`. -/
def runAux (draws : Nat → Draws) (loadOk : Nat → Bool) (startDate endDate : Int) :
    Nat → Nat → List Invoice → List (List Invoice) → List (List Invoice) → List Nat → RunOutcome
  | 0, gen, buf, att, per, tr =>
    if buf.isEmpty then ⟨att, per, gen, tr, false, true, none⟩
    else if loadOk att.length then ⟨att ++ [buf], per ++ [buf], gen, tr, false, true, none⟩
    else ⟨att ++ [buf], per, gen, tr, false, false, none⟩
  | rem + 1, gen, buf, att, per, tr =>
    match generate (draws gen) startDate endDate with
    | none => ⟨att, per, gen, tr, true, false, none⟩
    | some inv =>
      let buf2 := buf ++ [inv]
      let tr2 := tr ++ [buf2.length]
      if buf2.length = batch_size then
        if loadOk att.length then
          runAux draws loadOk startDate endDate rem (gen + 1) [] (att ++ [buf2]) (per ++ [buf2]) tr2
        else ⟨att ++ [buf2], per, gen + 1, tr2, false, false, none⟩
      else runAux draws loadOk startDate endDate rem (gen + 1) buf2 att per tr2

/-- The final `println!` of `main`: on success the summary reports
`num_invoices` itself (the requested count), otherwise nothing is printed. -/
def finishRun (num_invoices : Int) (core : RunOutcome) : RunOutcome :=
  ⟨core.attempts, core.persisted, core.generated, core.bufTrace, core.panicked, core.ok,
    if core.ok then some num_invoices else none⟩

/-- `main` from src/main.rs, the generate/batch/flush pipeline: the loop
runs `max(0, num_invoices)` times (`0..n` is empty for negative `n : i32`),
and on success the summary reports `num_invoices` itself. -/
def mainRun (num_invoices : Int) (draws : Nat → Draws) (loadOk : Nat → Bool) : RunOutcome :=
  finishRun num_invoices
    (runAux draws loadOk start_date end_date num_invoices.toNat 0 [] [] [] [])

/-- The flush-size sequence the spec predicts for `t` records at capacity
`batch_size`: `t / batch_size` full batches then the non-zero remainder. -/
def sizesFrom (t : Nat) : List Nat :=
  List.replicate (t / batch_size) batch_size ++
    (if t % batch_size = 0 then [] else [t % batch_size])

/-- A concrete draw record used by the witnesses below. -/
def drawsW : Draws := ⟨0, 0, 0, 0, 0, 0, 0⟩

/-- The invoice generated from `drawsW` over the one-day window `[0, 0]`. -/
def invW : Invoice := (generate drawsW 0 0).getD default

/-- The draw record of the C1 counterexample: the topmost value of the
53-bit uniform grid on `[100, 10000)`. -/
def cexDraws : Draws := ⟨0, 0, float53 - 1, 0, 0, 0, 0⟩

/-- The invoice the program generates from `cexDraws` over its hard-coded
date window. -/
def cexInv : Invoice := (generate cexDraws start_date end_date).getD default

/-- A constant draw stream used by the run-level witnesses. -/
def drawsF : Nat → Draws := fun _ => drawsW

/-- A loader oracle that accepts every flush. -/
def okAll : Nat → Bool := fun _ => true

/-- A loader oracle that rejects every flush. -/
def okNever : Nat → Bool := fun _ => false

/-- `Rat.floor` agrees with the `FloorRing` floor on `ℚ`. -/
theorem ratFloor_eq_intFloor (q : ℚ) : Rat.floor q = ⌊q⌋ := rfl

/-- The inclusive integer draw stays inside its range. -/
theorem genRangeIncl_mem (raw : Nat) (lo hi : Int) (h : lo ≤ hi) :
    lo ≤ genRangeIncl raw lo hi ∧ genRangeIncl raw lo hi ≤ hi := by
  rw [genRangeIncl]
  have h1 : 0 ≤ (raw : Int) % (hi - lo + 1) := Int.emod_nonneg _ (by omega)
  have h2 : (raw : Int) % (hi - lo + 1) < hi - lo + 1 := Int.emod_lt_of_pos _ (by omega)
  omega

/-- The half-open integer draw stays inside its range. -/
theorem genRangeInt_mem (raw : Nat) (lo hi : Int) (h : lo < hi) :
    lo ≤ genRangeInt raw lo hi ∧ genRangeInt raw lo hi < hi := by
  rw [genRangeInt]
  have h1 : 0 ≤ (raw : Int) % (hi - lo) := Int.emod_nonneg _ (by omega)
  have h2 : (raw : Int) % (hi - lo) < hi - lo := Int.emod_lt_of_pos _ (by omega)
  omega

/-- The modelled `f64` draw stays inside its half-open range. -/
theorem floatGenRange_mem (raw : Nat) (lo hi : ℚ) (h : lo < hi) :
    lo ≤ floatGenRange raw lo hi ∧ floatGenRange raw lo hi < hi := by
  rw [floatGenRange, mul_div_assoc]
  have h53 : (0 : ℚ) < (float53 : ℚ) := by norm_num [float53]
  have h0 : (0 : ℚ) ≤ ((raw % float53 : Nat) : ℚ) / (float53 : ℚ) := by positivity
  have h1 : ((raw % float53 : Nat) : ℚ) / (float53 : ℚ) < 1 := by
    rw [div_lt_one h53]
    exact_mod_cast Nat.mod_lt raw (by norm_num [float53])
  constructor
  · nlinarith [mul_nonneg (le_of_lt (sub_pos.mpr h)) h0]
  · nlinarith [mul_lt_mul_of_pos_left h1 (sub_pos.mpr h)]

/-- Rounding to the nearest hundredth cannot go below an integer lower
bound of the input. -/
theorem le_round2 (u : ℚ) (lo : Int) (h : (lo : ℚ) ≤ u) : (lo : ℚ) ≤ round2 u := by
  rw [round2, ratFloor_eq_intFloor, le_div_iff₀ (by norm_num : (0 : ℚ) < 100)]
  have hf : (lo * 100 : Int) ≤ ⌊u * 100 + 1 / 2⌋ := by
    rw [Int.le_floor]
    push_cast
    linarith
  calc (lo : ℚ) * 100 = ((lo * 100 : Int) : ℚ) := by push_cast; ring
  _ ≤ ((⌊u * 100 + 1 / 2⌋ : Int) : ℚ) := by exact_mod_cast hf
  _ = _ := rfl

/-- Rounding to the nearest hundredth cannot exceed a strict integer upper
bound of the input. -/
theorem round2_le (u : ℚ) (hi : Int) (h : u < (hi : ℚ)) : round2 u ≤ (hi : ℚ) := by
  rw [round2, ratFloor_eq_intFloor, div_le_iff₀ (by norm_num : (0 : ℚ) < 100)]
  have hf : ⌊u * 100 + 1 / 2⌋ < hi * 100 + 1 := by
    rw [Int.floor_lt]
    push_cast
    linarith
  have hf2 : ⌊u * 100 + 1 / 2⌋ ≤ hi * 100 := by omega
  calc ((⌊u * 100 + 1 / 2⌋ : Int) : ℚ) ≤ ((hi * 100 : Int) : ℚ) := by exact_mod_cast hf2
  _ = (hi : ℚ) * 100 := by push_cast; ring

/-- Unfolding `generate`: a successful generation exhibits every field, and
certifies that the date window was non-empty. -/
theorem generate_fields (d : Draws) (s e : Int) (inv : Invoice)
    (hg : generate d s e = some inv) :
    ¬ e - s < 0 ∧
    inv = ⟨genRangeInt d.custRaw 1 10000, fakeName d.nameRaw,
      secondsPerDay * (s + genRangeIncl d.dateRaw 0 (e - s)),
      secondsPerDay * (s + genRangeIncl d.dateRaw 0 (e - s)) +
        secondsPerDay * genRangeIncl d.dueRaw 0 90,
      round2 (floatGenRange d.totalRaw 100 10000),
      round2 (floatGenRange d.taxRaw 10 1000),
      chooseStatus d.statusRaw⟩ := by
  by_cases h : e - s < 0
  · rw [generate, random_date_in_range] at hg
    simp [h] at hg
  · refine ⟨h, ?_⟩
    rw [generate, random_date_in_range] at hg
    simp only [if_neg h, Option.some.injEq] at hg
    exact hg.symm

/-- Generation at the witness input succeeds and yields `invW`. -/
theorem generate_invW : generate drawsW 0 0 = some invW := rfl

/-- Generation succeeds whenever the date window is non-empty. -/
theorem generate_isSome (d : Draws) (s e : Int) (hse : s ≤ e) :
    (generate d s e).isSome = true := by
  rw [generate, random_date_in_range]
  have h2 : ¬ e - s < 0 := by omega
  simp [h2]

/-- C8: record generation never fails under valid inputs: for every date
window with `end ≥ start`, generating an invoice (including the random date
draw) cannot panic or return an error. -/
theorem c8_generation_never_fails (d : Draws) (s e : Int) (hse : s ≤ e) :
    (generate d s e).isSome = true :=
  generate_isSome d s e hse

/-- Witness for C8 at the concrete window `[0, 0]`. -/
theorem c8_generation_never_fails_witness :
    (0 : Int) ≤ 0 ∧ (generate drawsW 0 0).isSome = true :=
  ⟨le_refl 0, c8_generation_never_fails drawsW 0 0 (le_refl 0)⟩

/-- C2: for every generated invoice, `due_date ≥ invoice_date`, `due_date`
is `invoice_date` plus an offset of 0 to 90 days inclusive, and
`invoice_date` lies within the configured window with inclusive bounds,
normalized to midnight. -/
theorem c2_date_invariants (d : Draws) (s e : Int) (inv : Invoice)
    (hg : generate d s e = some inv) :
    inv.invoice_date ≤ inv.due_date ∧
    (∃ k : Int, 0 ≤ k ∧ k ≤ 90 ∧ inv.due_date = inv.invoice_date + secondsPerDay * k) ∧
    secondsPerDay * s ≤ inv.invoice_date ∧ inv.invoice_date ≤ secondsPerDay * e ∧
    inv.invoice_date % secondsPerDay = 0 := by
  obtain ⟨hne, hinv⟩ := generate_fields d s e inv hg
  subst hinv
  have hdate := genRangeIncl_mem d.dateRaw 0 (e - s) (by omega)
  have hdue := genRangeIncl_mem d.dueRaw 0 90 (by omega)
  refine ⟨?_, ⟨genRangeIncl d.dueRaw 0 90, hdue.1, hdue.2, rfl⟩, ?_, ?_, ?_⟩
  · show secondsPerDay * (s + genRangeIncl d.dateRaw 0 (e - s)) ≤
      secondsPerDay * (s + genRangeIncl d.dateRaw 0 (e - s)) +
        secondsPerDay * genRangeIncl d.dueRaw 0 90
    rw [secondsPerDay]
    omega
  · show secondsPerDay * s ≤ secondsPerDay * (s + genRangeIncl d.dateRaw 0 (e - s))
    rw [secondsPerDay]
    omega
  · show secondsPerDay * (s + genRangeIncl d.dateRaw 0 (e - s)) ≤ secondsPerDay * e
    rw [secondsPerDay]
    omega
  · exact Int.mul_emod_right secondsPerDay _

/-- Witness for C2 at the concrete window `[0, 0]`. -/
theorem c2_date_invariants_witness :
    invW.invoice_date ≤ invW.due_date ∧
    (∃ k : Int, 0 ≤ k ∧ k ≤ 90 ∧ invW.due_date = invW.invoice_date + secondsPerDay * k) ∧
    secondsPerDay * 0 ≤ invW.invoice_date ∧ invW.invoice_date ≤ secondsPerDay * 0 ∧
    invW.invoice_date % secondsPerDay = 0 :=
  c2_date_invariants drawsW 0 0 invW generate_invW

/-- C7: for every generated invoice, `customer_id` is an integer with
`1 ≤ customer_id < 10000`. -/
theorem c7_customer_id_range (d : Draws) (s e : Int) (inv : Invoice)
    (hg : generate d s e = some inv) :
    1 ≤ inv.customer_id ∧ inv.customer_id < 10000 := by
  obtain ⟨-, hinv⟩ := generate_fields d s e inv hg
  subst hinv
  exact genRangeInt_mem d.custRaw 1 10000 (by norm_num)

/-- Witness for C7 at the concrete window `[0, 0]`. -/
theorem c7_customer_id_range_witness :
    1 ≤ invW.customer_id ∧ invW.customer_id < 10000 :=
  c7_customer_id_range drawsW 0 0 invW generate_invW

/-- C1 (amended): for every generated invoice, `total_amount` lies in
`[100.00, 10000.00]` and `tax_amount` in `[10.00, 1000.00]` — the upper
bound is attainable, because a draw strictly below it can round up to it —
and each amount is an exact multiple of `1/100` (two fractional digits). -/
theorem c1_amount_ranges (d : Draws) (s e : Int) (inv : Invoice)
    (hg : generate d s e = some inv) :
    (100 ≤ inv.total_amount ∧ inv.total_amount ≤ 10000 ∧
      ∃ k : Int, inv.total_amount = (k : ℚ) / 100) ∧
    (10 ≤ inv.tax_amount ∧ inv.tax_amount ≤ 1000 ∧
      ∃ k : Int, inv.tax_amount = (k : ℚ) / 100) := by
  obtain ⟨-, hinv⟩ := generate_fields d s e inv hg
  subst hinv
  have htot := floatGenRange_mem d.totalRaw 100 10000 (by norm_num)
  have htax := floatGenRange_mem d.taxRaw 10 1000 (by norm_num)
  refine ⟨⟨?_, ?_, ⟨_, rfl⟩⟩, ⟨?_, ?_, ⟨_, rfl⟩⟩⟩
  · exact_mod_cast le_round2 (floatGenRange d.totalRaw 100 10000) 100 (by exact_mod_cast htot.1)
  · exact_mod_cast round2_le (floatGenRange d.totalRaw 100 10000) 10000 (by exact_mod_cast htot.2)
  · exact_mod_cast le_round2 (floatGenRange d.taxRaw 10 1000) 10 (by exact_mod_cast htax.1)
  · exact_mod_cast round2_le (floatGenRange d.taxRaw 10 1000) 1000 (by exact_mod_cast htax.2)

/-- Witness for C1 (amended) at the concrete window `[0, 0]`. -/
theorem c1_amount_ranges_witness :
    (100 ≤ invW.total_amount ∧ invW.total_amount ≤ 10000 ∧
      ∃ k : Int, invW.total_amount = (k : ℚ) / 100) ∧
    (10 ≤ invW.tax_amount ∧ invW.tax_amount ≤ 1000 ∧
      ∃ k : Int, invW.tax_amount = (k : ℚ) / 100) :=
  c1_amount_ranges drawsW 0 0 invW generate_invW

/-- Generation at the counterexample input succeeds and yields `cexInv`. -/
theorem generate_cexInv : generate cexDraws start_date end_date = some cexInv := rfl

/-- C1 counterexample: the claim `total_amount < 10000.00` fails on the
code: the draw `100 + 9900 * (2^53 - 1) / 2^53` lies inside `[100, 10000)`
but `format!("{:.2}", _)` rounds it up to exactly `10000.00`. -/
theorem c1_counterexample :
    ¬ ∀ inv : Invoice, generate cexDraws start_date end_date = some inv →
      inv.total_amount < 10000 := by
  intro hclaim
  have hkey : round2 (floatGenRange (float53 - 1) 100 10000) = 10000 := by
    rw [round2, ratFloor_eq_intFloor]
    have h : ⌊floatGenRange (float53 - 1) 100 10000 * 100 + 1 / 2⌋ = (1000000 : Int) := by
      rw [Int.floor_eq_iff]
      constructor
      · rw [floatGenRange, float53]
        norm_num
      · rw [floatGenRange, float53]
        norm_num
    rw [h]
    norm_num
  have htot : cexInv.total_amount = round2 (floatGenRange (float53 - 1) 100 10000) := rfl
  have hlt := hclaim cexInv generate_cexInv
  rw [htot, hkey] at hlt
  exact absurd hlt (by norm_num)

/-- C4: every batch passed to the bulk loader yields seven column arrays
whose length equals the batch size, and the i-th element of each array
comes from the i-th record of the batch, in insertion order. -/
theorem c4_column_alignment (invoices : List Invoice) (i : Nat) :
    ((insert_invoices invoices).customer_ids.length = invoices.length ∧
      (insert_invoices invoices).customer_names.length = invoices.length ∧
      (insert_invoices invoices).invoice_dates.length = invoices.length ∧
      (insert_invoices invoices).due_dates.length = invoices.length ∧
      (insert_invoices invoices).total_amounts.length = invoices.length ∧
      (insert_invoices invoices).tax_amounts.length = invoices.length ∧
      (insert_invoices invoices).statuses.length = invoices.length) ∧
    ((insert_invoices invoices).customer_ids[i]? = (invoices[i]?).map Invoice.customer_id ∧
      (insert_invoices invoices).customer_names[i]? = (invoices[i]?).map Invoice.customer_name ∧
      (insert_invoices invoices).invoice_dates[i]? = (invoices[i]?).map Invoice.invoice_date ∧
      (insert_invoices invoices).due_dates[i]? = (invoices[i]?).map Invoice.due_date ∧
      (insert_invoices invoices).total_amounts[i]? = (invoices[i]?).map Invoice.total_amount ∧
      (insert_invoices invoices).tax_amounts[i]? = (invoices[i]?).map Invoice.tax_amount ∧
      (insert_invoices invoices).statuses[i]? = (invoices[i]?).map Invoice.status) := by
  simp [insert_invoices, List.getElem?_map]

/-- Zero records require zero flushes. -/
theorem sizesFrom_zero : sizesFrom 0 = [] := by
  simp [sizesFrom]

/-- A single short batch is flushed once, as a partial batch. -/
theorem sizesFrom_small (t : Nat) (h1 : t ≠ 0) (h2 : t < batch_size) :
    sizesFrom t = [t] := by
  rw [sizesFrom, Nat.div_eq_of_lt h2, Nat.mod_eq_of_lt h2]
  simp [h1]

/-- One extra full batch prepends one full flush. -/
theorem sizesFrom_add (t : Nat) : sizesFrom (batch_size + t) = batch_size :: sizesFrom t := by
  rw [sizesFrom, sizesFrom]
  have h1 : (batch_size + t) / batch_size = t / batch_size + 1 := by
    rw [Nat.add_comm]
    exact Nat.add_div_right t (by norm_num [batch_size])
  have h2 : (batch_size + t) % batch_size = t % batch_size := Nat.add_mod_left _ _
  rw [h1, h2, List.replicate_succ, List.cons_append]

/-- The number of flushes is the ceiling of `t / batch_size`. -/
theorem sizesFrom_length (t : Nat) :
    (sizesFrom t).length = (t + batch_size - 1) / batch_size := by
  rw [sizesFrom]
  by_cases h : t % batch_size = 0
  · rw [if_pos h]
    simp only [List.append_nil, List.length_replicate]
    simp only [batch_size] at h ⊢
    omega
  · rw [if_neg h]
    simp only [List.length_append, List.length_replicate, List.length_cons, List.length_nil]
    simp only [batch_size] at h ⊢
    omega

/-- Master invariant of the orchestrator loop.  Starting from a live state
(buffer below capacity, all prior flushes accepted, `gen` counting exactly
the records in accepted batches plus the buffer), the run never panics when
the window is non-empty; every persisted batch was accepted by the loader;
on success all attempted batches are persisted, every requested record was
generated, and the persisted batches hold exactly the generated records; on
failure the rejected batch is the last attempted one, its index is the
first rejected flush, and no record was generated past it. -/
theorem runAux_spec (draws : Nat → Draws) (loadOk : Nat → Bool) (s e : Int) (hse : s ≤ e) :
    ∀ (rem gen : Nat) (buf : List Invoice) (att per : List (List Invoice)) (tr : List Nat)
      (out : RunOutcome),
      buf.length < batch_size → per = att →
      gen = (att.map List.length).sum + buf.length →
      (∀ k, k < att.length → loadOk k = true) →
      out = runAux draws loadOk s e rem gen buf att per tr →
      out.panicked = false ∧
      (∀ k, k < out.persisted.length → loadOk k = true) ∧
      (out.ok = true → out.attempts = out.persisted ∧ out.generated = gen + rem ∧
        (out.persisted.map List.length).sum = out.generated) ∧
      (out.ok = false → loadOk out.persisted.length = false ∧
        (∃ fl, out.attempts = out.persisted ++ [fl]) ∧
        (out.attempts.map List.length).sum = out.generated) := by
  intro rem
  induction rem with
  | zero =>
    intro gen buf att per tr out hb hpa hgen hprev hout
    subst per
    simp only [runAux] at hout
    by_cases hbe : buf.isEmpty = true
    · rw [if_pos hbe] at hout
      subst hout
      have hb0 : buf = [] := List.isEmpty_iff.mp hbe
      subst hb0
      refine ⟨rfl, hprev, ?_, ?_⟩
      · intro _
        refine ⟨rfl, rfl, ?_⟩
        simp only [List.length_nil, Nat.add_zero] at hgen
        exact hgen.symm
      · intro h
        exact absurd h (by simp)
    · by_cases hl : loadOk att.length = true
      · rw [if_neg hbe, if_pos hl] at hout
        subst hout
        refine ⟨rfl, ?_, ?_, ?_⟩
        · intro k hk
          simp only [List.length_append, List.length_cons, List.length_nil] at hk
          rcases Nat.lt_or_ge k att.length with h' | h'
          · exact hprev k h'
          · have hk2 : k = att.length := by omega
            subst hk2
            exact hl
        · intro _
          refine ⟨rfl, rfl, ?_⟩
          simp only [List.map_append, List.map_cons, List.map_nil, List.sum_append,
            List.sum_cons, List.sum_nil]
          omega
        · intro h
          exact absurd h (by simp)
      · rw [if_neg hbe, if_neg hl] at hout
        subst hout
        have hlf : loadOk att.length = false := by
          revert hl
          cases loadOk att.length <;> simp
        refine ⟨rfl, hprev, ?_, ?_⟩
        · intro h
          exact absurd h (by simp)
        · intro _
          refine ⟨hlf, ⟨buf, rfl⟩, ?_⟩
          simp only [List.map_append, List.map_cons, List.map_nil, List.sum_append,
            List.sum_cons, List.sum_nil]
          omega
  | succ rem ih =>
    intro gen buf att per tr out hb hpa hgen hprev hout
    subst per
    simp only [runAux] at hout
    obtain ⟨inv, hinv⟩ := Option.isSome_iff_exists.mp (generate_isSome (draws gen) s e hse)
    rw [hinv] at hout
    simp only [] at hout
    by_cases hfull : (buf ++ [inv]).length = batch_size
    · rw [if_pos hfull] at hout
      by_cases hl : loadOk att.length = true
      · rw [if_pos hl] at hout
        have h := ih (gen + 1) [] (att ++ [buf ++ [inv]]) (att ++ [buf ++ [inv]])
            (tr ++ [(buf ++ [inv]).length]) out (by simp [batch_size]) rfl
            (by
              simp only [List.map_append, List.map_cons, List.map_nil, List.sum_append,
                List.sum_cons, List.sum_nil, List.length_nil, List.length_append,
                List.length_cons]
              omega)
            (by
              intro k hk
              simp only [List.length_append, List.length_cons, List.length_nil] at hk
              rcases Nat.lt_or_ge k att.length with h' | h'
              · exact hprev k h'
              · have hk2 : k = att.length := by omega
                subst hk2
                exact hl)
            hout
        refine ⟨h.1, h.2.1, ?_, h.2.2.2⟩
        intro hok
        obtain ⟨ha, hg', hc⟩ := h.2.2.1 hok
        exact ⟨ha, by omega, hc⟩
      · rw [if_neg hl] at hout
        subst hout
        have hlf : loadOk att.length = false := by
          revert hl
          cases loadOk att.length <;> simp
        refine ⟨rfl, hprev, ?_, ?_⟩
        · intro h
          exact absurd h (by simp)
        · intro _
          refine ⟨hlf, ⟨buf ++ [inv], rfl⟩, ?_⟩
          simp only [List.map_append, List.map_cons, List.map_nil, List.sum_append,
            List.sum_cons, List.sum_nil, List.length_append, List.length_cons,
            List.length_nil]
          omega
    · rw [if_neg hfull] at hout
      have hlt : (buf ++ [inv]).length < batch_size := by
        simp only [List.length_append, List.length_cons, List.length_nil] at hfull ⊢
        omega
      have h := ih (gen + 1) (buf ++ [inv]) att att (tr ++ [(buf ++ [inv]).length]) out hlt rfl
          (by
            simp only [List.length_append, List.length_cons, List.length_nil]
            omega)
          hprev hout
      refine ⟨h.1, h.2.1, ?_, h.2.2.2⟩
      intro hok
      obtain ⟨ha, hg', hc⟩ := h.2.2.1 hok
      exact ⟨ha, by omega, hc⟩

/-- When every flush is accepted, the run succeeds and the sizes of the
attempted batches extend the already-attempted ones by exactly the
spec-predicted sequence for the buffered plus remaining records. -/
theorem runAux_sizes (draws : Nat → Draws) (loadOk : Nat → Bool) (s e : Int) (hse : s ≤ e)
    (hok : ∀ k, loadOk k = true) :
    ∀ (rem gen : Nat) (buf : List Invoice) (att per : List (List Invoice)) (tr : List Nat)
      (out : RunOutcome),
      buf.length < batch_size →
      out = runAux draws loadOk s e rem gen buf att per tr →
      out.ok = true ∧
      out.attempts.map List.length = att.map List.length ++ sizesFrom (buf.length + rem) := by
  intro rem
  induction rem with
  | zero =>
    intro gen buf att per tr out hb hout
    simp only [runAux] at hout
    by_cases hbe : buf.isEmpty = true
    · rw [if_pos hbe] at hout
      subst hout
      have hb0 : buf = [] := List.isEmpty_iff.mp hbe
      subst hb0
      refine ⟨rfl, ?_⟩
      simp [sizesFrom_zero]
    · rw [if_neg hbe, if_pos (hok att.length)] at hout
      subst hout
      refine ⟨rfl, ?_⟩
      have hne : buf ≠ [] := by simpa [List.isEmpty_iff] using hbe
      have h0 : buf.length ≠ 0 := by simpa [List.length_eq_zero] using hne
      rw [show buf.length + 0 = buf.length from rfl, sizesFrom_small buf.length h0 hb]
      simp [List.map_append]
  | succ rem ih =>
    intro gen buf att per tr out hb hout
    simp only [runAux] at hout
    obtain ⟨inv, hinv⟩ := Option.isSome_iff_exists.mp (generate_isSome (draws gen) s e hse)
    rw [hinv] at hout
    simp only [] at hout
    by_cases hfull : (buf ++ [inv]).length = batch_size
    · rw [if_pos hfull, if_pos (hok att.length)] at hout
      have h := ih (gen + 1) [] (att ++ [buf ++ [inv]]) (per ++ [buf ++ [inv]])
          (tr ++ [(buf ++ [inv]).length]) out (by simp [batch_size]) hout
      refine ⟨h.1, ?_⟩
      rw [h.2]
      simp only [List.length_nil, Nat.zero_add, List.map_append, List.map_cons, List.map_nil]
      rw [hfull]
      rw [show buf.length + (rem + 1) = batch_size + rem by
        simp only [List.length_append, List.length_cons, List.length_nil] at hfull
        omega]
      rw [sizesFrom_add]
      simp [List.append_assoc]
    · rw [if_neg hfull] at hout
      have hlt : (buf ++ [inv]).length < batch_size := by
        simp only [List.length_append, List.length_cons, List.length_nil] at hfull ⊢
        omega
      have h := ih (gen + 1) (buf ++ [inv]) att per (tr ++ [(buf ++ [inv]).length]) out hlt hout
      refine ⟨h.1, ?_⟩
      rw [h.2, show (buf ++ [inv]).length + rem = buf.length + (rem + 1) by
        simp only [List.length_append, List.length_cons, List.length_nil]
        omega]

/-- The buffer length observed after every push, and the size of every
batch handed to the loader, never exceed the batch capacity. -/
theorem runAux_trace (draws : Nat → Draws) (loadOk : Nat → Bool) (s e : Int) :
    ∀ (rem gen : Nat) (buf : List Invoice) (att per : List (List Invoice)) (tr : List Nat)
      (out : RunOutcome),
      buf.length < batch_size →
      (∀ x ∈ tr, x ≤ batch_size) →
      (∀ b ∈ att, b.length ≤ batch_size) →
      out = runAux draws loadOk s e rem gen buf att per tr →
      (∀ x ∈ out.bufTrace, x ≤ batch_size) ∧
      (∀ b ∈ out.attempts, b.length ≤ batch_size) := by
  intro rem
  induction rem with
  | zero =>
    intro gen buf att per tr out hb htr hatt hout
    simp only [runAux] at hout
    by_cases hbe : buf.isEmpty = true
    · rw [if_pos hbe] at hout
      subst hout
      exact ⟨htr, hatt⟩
    · have hnew : ∀ b ∈ att ++ [buf], b.length ≤ batch_size := by
        intro b hbm
        rcases List.mem_append.mp hbm with h' | h'
        · exact hatt b h'
        · have : b = buf := List.mem_singleton.mp h'
          subst this
          omega
      by_cases hl : loadOk att.length = true
      · rw [if_neg hbe, if_pos hl] at hout
        subst hout
        exact ⟨htr, hnew⟩
      · rw [if_neg hbe, if_neg hl] at hout
        subst hout
        exact ⟨htr, hnew⟩
  | succ rem ih =>
    intro gen buf att per tr out hb htr hatt hout
    simp only [runAux] at hout
    cases hg : generate (draws gen) s e with
    | none =>
      rw [hg] at hout
      simp only [] at hout
      subst hout
      exact ⟨htr, hatt⟩
    | some inv =>
      rw [hg] at hout
      simp only [] at hout
      have hlen : (buf ++ [inv]).length = buf.length + 1 := by
        simp
      have htr2 : ∀ x ∈ tr ++ [(buf ++ [inv]).length], x ≤ batch_size := by
        intro x hx
        rcases List.mem_append.mp hx with h' | h'
        · exact htr x h'
        · have : x = (buf ++ [inv]).length := List.mem_singleton.mp h'
          subst this
          omega
      by_cases hfull : (buf ++ [inv]).length = batch_size
      · have hnew : ∀ b ∈ att ++ [buf ++ [inv]], b.length ≤ batch_size := by
          intro b hbm
          rcases List.mem_append.mp hbm with h' | h'
          · exact hatt b h'
          · have : b = buf ++ [inv] := List.mem_singleton.mp h'
            subst this
            omega
        rw [if_pos hfull] at hout
        by_cases hl : loadOk att.length = true
        · rw [if_pos hl] at hout
          exact ih (gen + 1) [] (att ++ [buf ++ [inv]]) (per ++ [buf ++ [inv]])
            (tr ++ [(buf ++ [inv]).length]) out (by simp [batch_size]) htr2 hnew hout
        · rw [if_neg hl] at hout
          subst hout
          exact ⟨htr2, hnew⟩
      · rw [if_neg hfull] at hout
        have hlt : (buf ++ [inv]).length < batch_size := by
          omega
        exact ih (gen + 1) (buf ++ [inv]) att per (tr ++ [(buf ++ [inv]).length]) out
          hlt htr2 hatt hout

/-- C3: for every requested count `n ≥ 0` (batch capacity 10000), a run
whose flushes all succeed performs exactly `⌈n / 10000⌉` flushes — none
when `n = 0` — a non-empty partial batch being flushed exactly once at the
end; in particular 25000 records yield exactly 3 flushes of sizes
10000, 10000 and 5000. -/
theorem c3_flush_count (n : Nat) (draws : Nat → Draws) (loadOk : Nat → Bool)
    (hok : ∀ k, loadOk k = true) :
    (mainRun (n : Int) draws loadOk).attempts.map List.length = sizesFrom n ∧
    (mainRun (n : Int) draws loadOk).attempts.length = (n + batch_size - 1) / batch_size ∧
    (mainRun (25000 : Int) draws loadOk).attempts.map List.length =
      [batch_size, batch_size, 5000] := by
  have hse : start_date ≤ end_date := by norm_num [start_date, end_date]
  have key : ∀ m : Nat,
      (mainRun (m : Int) draws loadOk).attempts.map List.length = sizesFrom m := by
    intro m
    have h := runAux_sizes draws loadOk start_date end_date hse hok m 0 [] [] [] []
        (runAux draws loadOk start_date end_date m 0 [] [] [] []) (by simp [batch_size]) rfl
    have hm : (mainRun (m : Int) draws loadOk).attempts
        = (runAux draws loadOk start_date end_date m 0 [] [] [] []).attempts := rfl
    rw [hm, h.2]
    simp only [List.map_nil, List.nil_append, List.length_nil, Nat.zero_add]
  refine ⟨key n, ?_, ?_⟩
  · have hlen : (mainRun (n : Int) draws loadOk).attempts.length
        = ((mainRun (n : Int) draws loadOk).attempts.map List.length).length := by simp
    rw [hlen, key n, sizesFrom_length]
  · have h25 := key 25000
    have hs : sizesFrom 25000 = [batch_size, batch_size, 5000] := by decide
    exact hs ▸ h25

/-- Witness for C3 at `n = 0` with the all-accepting loader. -/
theorem c3_flush_count_witness :
    (mainRun ((0 : Nat) : Int) drawsF okAll).attempts.map List.length = sizesFrom 0 ∧
    (mainRun ((0 : Nat) : Int) drawsF okAll).attempts.length = (0 + batch_size - 1) / batch_size ∧
    (mainRun (25000 : Int) drawsF okAll).attempts.map List.length =
      [batch_size, batch_size, 5000] :=
  c3_flush_count 0 drawsF okAll (fun _ => rfl)

/-- C5: if a flush fails, the run halts: the error is propagated (nothing
is reported), every persisted batch was accepted, the failing flush is the
first rejected one and the last attempted one, and no record was generated
past the failed flush. -/
theorem c5_failure_halts (n : Int) (draws : Nat → Draws) (loadOk : Nat → Bool)
    (hfail : (mainRun n draws loadOk).ok = false) :
    (mainRun n draws loadOk).panicked = false ∧
    (mainRun n draws loadOk).reported = none ∧
    (∀ k, k < (mainRun n draws loadOk).persisted.length → loadOk k = true) ∧
    loadOk (mainRun n draws loadOk).persisted.length = false ∧
    (∃ fl, (mainRun n draws loadOk).attempts = (mainRun n draws loadOk).persisted ++ [fl]) ∧
    ((mainRun n draws loadOk).attempts.map List.length).sum
      = (mainRun n draws loadOk).generated := by
  have hse : start_date ≤ end_date := by norm_num [start_date, end_date]
  have h := runAux_spec draws loadOk start_date end_date hse n.toNat 0 [] [] [] []
      (runAux draws loadOk start_date end_date n.toNat 0 [] [] [] [])
      (by simp [batch_size]) rfl (by simp) (by intro k hk; simp at hk) rfl
  have hko : (runAux draws loadOk start_date end_date n.toNat 0 [] [] [] []).ok = false := hfail
  obtain ⟨hfl, hex, hsum⟩ := h.2.2.2 hko
  refine ⟨h.1, ?_, h.2.1, hfl, hex, hsum⟩
  show (if (runAux draws loadOk start_date end_date n.toNat 0 [] [] [] []).ok = true
      then some n else none) = none
  simp [hko]

/-- Witness for C5: requesting one record with an always-rejecting loader
fails at the final partial flush. -/
theorem c5_failure_halts_witness :
    (mainRun 1 drawsF okNever).ok = false ∧
    ((mainRun 1 drawsF okNever).panicked = false ∧
      (mainRun 1 drawsF okNever).reported = none ∧
      (∀ k, k < (mainRun 1 drawsF okNever).persisted.length → okNever k = true) ∧
      okNever (mainRun 1 drawsF okNever).persisted.length = false ∧
      (∃ fl, (mainRun 1 drawsF okNever).attempts
        = (mainRun 1 drawsF okNever).persisted ++ [fl]) ∧
      ((mainRun 1 drawsF okNever).attempts.map List.length).sum
        = (mainRun 1 drawsF okNever).generated) :=
  ⟨by decide, c5_failure_halts 1 drawsF okNever (by decide)⟩

/-- C6: on successful completion the summary reports exactly the requested
count, and that count equals the number of records accepted by the
bulk-load calls. -/
theorem c6_success_reports_total (n : Nat) (draws : Nat → Draws) (loadOk : Nat → Bool)
    (hsucc : (mainRun (n : Int) draws loadOk).ok = true) :
    (mainRun (n : Int) draws loadOk).reported = some (n : Int) ∧
    ((mainRun (n : Int) draws loadOk).persisted.map List.length).sum = n ∧
    (mainRun (n : Int) draws loadOk).attempts = (mainRun (n : Int) draws loadOk).persisted := by
  have hse : start_date ≤ end_date := by norm_num [start_date, end_date]
  have h := runAux_spec draws loadOk start_date end_date hse n 0 [] [] [] []
      (runAux draws loadOk start_date end_date n 0 [] [] [] [])
      (by simp [batch_size]) rfl (by simp) (by intro k hk; simp at hk) rfl
  have hko : (runAux draws loadOk start_date end_date n 0 [] [] [] []).ok = true := hsucc
  obtain ⟨ha, hg', hc⟩ := h.2.2.1 hko
  refine ⟨?_, ?_, ha⟩
  · show (if (runAux draws loadOk start_date end_date n 0 [] [] [] []).ok = true
        then some (n : Int) else none) = some (n : Int)
    simp [hko]
  · show ((runAux draws loadOk start_date end_date n 0 [] [] [] []).persisted.map
        List.length).sum = n
    rw [hc, hg']
    omega

/-- Witness for C6 at `n = 0`. -/
theorem c6_success_reports_total_witness :
    (mainRun ((0 : Nat) : Int) drawsF okAll).ok = true ∧
    ((mainRun ((0 : Nat) : Int) drawsF okAll).reported = some ((0 : Nat) : Int) ∧
      ((mainRun ((0 : Nat) : Int) drawsF okAll).persisted.map List.length).sum = 0 ∧
      (mainRun ((0 : Nat) : Int) drawsF okAll).attempts
        = (mainRun ((0 : Nat) : Int) drawsF okAll).persisted) :=
  ⟨by decide, c6_success_reports_total 0 drawsF okAll (by decide)⟩

/-- C9: at every point of the run the batch buffer holds at most
`batch_size` invoices — a flush and clear happen as soon as a push brings
the length to the capacity — and consequently no batch handed to the
loader exceeds the capacity either. -/
theorem c9_buffer_bounded (n : Int) (draws : Nat → Draws) (loadOk : Nat → Bool) :
    (∀ x ∈ (mainRun n draws loadOk).bufTrace, x ≤ batch_size) ∧
    (∀ b ∈ (mainRun n draws loadOk).attempts, b.length ≤ batch_size) := by
  have h := runAux_trace draws loadOk start_date end_date n.toNat 0 [] [] [] []
      (runAux draws loadOk start_date end_date n.toNat 0 [] [] [] [])
      (by simp [batch_size]) (by intro x hx; simp at hx) (by intro b hb; simp at hb) rfl
  exact h

/-- Witness for C9: after one push the observed buffer length is 1. -/
theorem c9_buffer_bounded_witness :
    ((1 : Nat) ∈ (mainRun 1 drawsF okAll).bufTrace) ∧ (1 : Nat) ≤ batch_size :=
  ⟨by decide, (c9_buffer_bounded 1 drawsF okAll).1 1 (by decide)⟩

/-- C10: for any negative requested count the loop body never runs: zero
records are generated, zero flushes are performed, the run completes
successfully, and the summary still reports the negative requested count. -/
theorem c10_negative_count (n : Int) (draws : Nat → Draws) (loadOk : Nat → Bool)
    (hneg : n < 0) :
    mainRun n draws loadOk = ⟨[], [], 0, [], false, true, some n⟩ := by
  have h0 : n.toNat = 0 := Int.toNat_of_nonpos (le_of_lt hneg)
  rw [mainRun, h0]
  rfl

/-- Witness for C10 at `n = -5`. -/
theorem c10_negative_count_witness :
    mainRun (-5) drawsF okAll = ⟨[], [], 0, [], false, true, some (-5)⟩ :=
  c10_negative_count (-5) drawsF okAll (by decide)
